import Mathlib

/-!
Verification development for the DropSync per-endpoint connection engine
(src/src/hooks/useWebRTC.ts, together with the crypto utility module).

The TypeScript hook is embedded shallowly:

* Mutable React state and refs become fields of an explicit `EndpointState`
  record; each event handler of the hook becomes a pure function from
  `EndpointState` (plus the received frame) to a new `EndpointState`, paired
  with the list of frames the handler sends on the data channel.
* JavaScript objects keyed by transfer id (`transfers`, `pendingFiles`,
  `transferStatesRef.current`, `activeChannelsRef.current`) become
  association lists `List (String × _)`; the object-spread update
  `{...prev, [id]: v}` becomes `upsert` (replace in place, else append) and
  `delete next[id]` becomes `removeKey`.
* Bytes are `Nat`s, byte arrays are `List Nat`.  Base64 transport coding
  (btoa/atob) is an invertible byte coding and is elided: frames carry the
  raw bytes.
* The platform primitives that the repository only calls — HMAC signing
  (`signChallenge` / `verifyChallenge` of the crypto utility, whose source
  is not present next to `encryptChunk` / `decryptChunk`), AES-GCM and
  PBKDF2 — are parameters of the embedding (`mac`, `AEAD`, `kdf`).
-/

/-! ## Basic data model (from the interfaces at the top of useWebRTC.ts) -/

/-- RTCPeerConnection.connectionState values. -/
inductive PCState where
  | new | connecting | connected | disconnected | failed | closed
deriving DecidableEq

/-- RTCDataChannel.readyState values; `opened` stands for the DOM string
"open". -/
inductive ChannelReady where
  | connecting | opened | closing | closed
deriving DecidableEq

/-- status field of FileTransferProgress; `pendingAccept` stands for
"pending-accept". -/
inductive TransferStatus where
  | sending | receiving | completed | error | cancelled | pendingAccept
deriving DecidableEq

/-- direction field of FileTransferProgress. -/
inductive Direction where
  | send | receive
deriving DecidableEq

/-- Origin of a chat message (the TypeScript field is called "from", a Lean
keyword, hence `origin`): "me" or "peer". -/
inductive Origin where
  | me | peer
deriving DecidableEq

/-- A File handle as the sender sees it: name and declared size.  The byte
contents are supplied separately as the list of values yielded by
file.stream().getReader(). -/
structure FileRec where
  name : String
  size : Nat
deriving DecidableEq

/-- interface FileTransferProgress (second revision, with id, optional
error and the retained file reference). -/
structure FileTransferProgress where
  id : String
  name : String
  size : Nat
  progress : Nat
  status : TransferStatus
  direction : Direction
  error : Option String
  file : Option FileRec
deriving DecidableEq

/-- interface PendingFile; `blob` is the assembled byte payload. -/
structure PendingFile where
  id : String
  name : String
  size : Nat
  blob : List Nat
deriving DecidableEq

/-- interface ChatMessage. -/
structure ChatMessage where
  id : String
  text : String
  origin : Origin
  timestamp : Nat
deriving DecidableEq

/-- Entry of transferStatesRef.current: received chunk accumulator, the
file-start metadata, the reader handle (modelled as a presence flag plus a
cancelled flag for the underlying stream), and the cancellation flag. -/
structure TransferRuntime where
  receivedChunks : List (List Nat)
  currentFile : Option (String × Nat)
  readerActive : Bool
  readerCancelled : Bool
  cancelled : Bool
deriving DecidableEq

/-- The mutable state of one endpoint of useWebRTC: React state and refs.
`pc` is `none` when pcRef.current is null, otherwise the connectionState. -/
structure EndpointState where
  pc : Option PCState
  password : Option String
  authError : Option String
  isConnected : Bool
  peerId : Option String
  transfers : List (String × FileTransferProgress)
  pendingFiles : List (String × PendingFile)
  chatMessages : List ChatMessage
  transferStates : List (String × TransferRuntime)
  activeChannels : List (String × ChannelReady)
deriving DecidableEq

/-- The endpoint state right after mount: no peer connection, no password,
all collections empty. -/
def initialState : EndpointState :=
  ⟨none, none, none, false, none, [], [], [], [], []⟩

/-! ## Association-list operations mirroring JavaScript object updates -/

/-- Key lookup in an id-keyed object. -/
def lookupA {α : Type} : List (String × α) → String → Option α
  | [], _ => none
  | p :: rest, k => if p.1 = k then some p.2 else lookupA rest k

/-- The object-spread update {...prev, [id]: v}: replace the value of an
existing key in place, otherwise append the new binding. -/
def upsert {α : Type} : List (String × α) → String → α → List (String × α)
  | [], k, v => [(k, v)]
  | p :: rest, k, v => if p.1 = k then (k, v) :: rest else p :: upsert rest k v

/-- The delete next[id] update: drop the binding for a key. -/
def removeKey {α : Type} (m : List (String × α)) (k : String) :
    List (String × α) :=
  m.filter (fun p => p.1 != k)

/-! ## Control stream ("signaling" data channel, §4.4/§4.5)

Message kinds carried on the control stream.  `unknown` stands for any
JSON message whose type matches none of the handled kinds (the handler
falls through all branches), as well as for unparsable input (the
try/catch only logs). -/

inductive CtrlMsg where
  | authSkip
  | authChallenge (challenge : List Nat)
  | authResponse (challenge : List Nat) (signature : List Nat)
  | authOk
  | authFail
  | chat (id : String) (text : String) (timestamp : Nat)
  | unknown
deriving DecidableEq

/-- Modelled from the spec: signChallenge(nonce, password) of the crypto
utility is HMAC-SHA-256 over the nonce under a password-derived key.  Its
source file next to encryptChunk/decryptChunk is not part of the sources;
the HMAC primitive is taken as an abstract parameter `mac`. -/
def signChallenge (mac : String → List Nat → List Nat) (nonce : List Nat)
    (password : String) : List Nat :=
  mac password nonce

/-- Modelled from the spec: verifyChallenge(nonce, mac, password) compares
the received MAC with the locally computed HMAC over the nonce. -/
def verifyChallenge (mac : String → List Nat → List Nat)
    (nonce signature : List Nat) (password : String) : Bool :=
  signature == signChallenge mac nonce password

/-- teardownPeerConnection: close and null out the RTCPeerConnection and
close every active data channel, emptying the channel map. -/
def teardownPeerConnection (s : EndpointState) : EndpointState :=
  { s with pc := none, activeChannels := [] }

/-- dc.onopen of setupSignalingChannel: with no password send auth-skip;
with a password, the initiator sends a fresh 32-byte challenge (a
parameter here, the code draws it from crypto.getRandomValues and keeps it
only in a local variable of the handler). -/
def handleControlOpen (s : EndpointState) (isInitiator : Bool)
    (challenge : List Nat) : List CtrlMsg :=
  match s.password with
  | none => [CtrlMsg.authSkip]
  | some _ => if isInitiator then [CtrlMsg.authChallenge challenge] else []

/-- dc.onmessage of setupSignalingChannel: the auth state machine plus
chat.  Returns the successor state and the frames sent on the channel.
pw is read from passwordRef.current at handling time. -/
def handleControlMessage (mac : String → List Nat → List Nat)
    (s : EndpointState) (msg : CtrlMsg) : EndpointState × List CtrlMsg :=
  match msg with
  | CtrlMsg.authSkip =>
    match s.password with
    | some _ =>
      ({ teardownPeerConnection s with
          authError := some "Password mismatch — peer has no password set.",
          isConnected := false, peerId := none }, [CtrlMsg.authFail])
    | none => (s, [])
  | CtrlMsg.authChallenge c =>
    match s.password with
    | none =>
      ({ teardownPeerConnection s with
          authError := some "Password required — peer has password protection enabled.",
          isConnected := false, peerId := none }, [CtrlMsg.authFail])
    | some pw =>
      (s, [CtrlMsg.authResponse c (signChallenge mac c pw)])
  | CtrlMsg.authResponse c sig =>
    match s.password with
    | none =>
      ({ teardownPeerConnection s with
          authError := some "Password mismatch — peer has a password set.",
          isConnected := false, peerId := none }, [CtrlMsg.authFail])
    | some pw =>
      if verifyChallenge mac c sig pw then
        ({ s with authError := none }, [CtrlMsg.authOk])
      else
        ({ teardownPeerConnection s with
            authError := some "Wrong password — authentication failed.",
            isConnected := false, peerId := none }, [CtrlMsg.authFail])
  | CtrlMsg.authOk => ({ s with authError := none }, [])
  | CtrlMsg.authFail =>
    ({ teardownPeerConnection s with
        authError := some "Wrong password — rejected by peer.",
        isConnected := false, peerId := none }, [])
  | CtrlMsg.chat i t ts =>
    ({ s with chatMessages := s.chatMessages ++ [⟨i, t, Origin.peer, ts⟩] }, [])
  | CtrlMsg.unknown => (s, [])

/-- Process a sequence of received control frames from a state,
accumulating the frames sent in reply. -/
def runCtrl (mac : String → List Nat → List Nat) (s : EndpointState) :
    List CtrlMsg → EndpointState × List CtrlMsg
  | [] => (s, [])
  | msg :: rest =>
    let r := handleControlMessage mac s msg
    let r' := runCtrl mac r.1 rest
    (r'.1, r.2 ++ r'.2)

/-- A concrete stand-in MAC used for concrete evaluations. -/
def macDemo : String → List Nat → List Nat :=
  fun pw n => n ++ [pw.length]

/-! ## Crypto utility (src/utils/crypto.ts): encryptChunk / decryptChunk

AES-GCM and PBKDF2 are WebCrypto platform primitives; they enter the
embedding as an abstract authenticated cipher `AEAD` and a key-derivation
function `kdf` standing for deriveKey (PBKDF2, 100000 iterations,
SHA-256, fixed salt). -/

/-- An authenticated cipher: enc key iv plaintext yields ciphertext plus
tag, dec key iv ciphertext yields the plaintext or fails. -/
structure AEAD where
  enc : List Nat → List Nat → List Nat → List Nat
  dec : List Nat → List Nat → List Nat → Option (List Nat)

/-- Functional correctness of the authenticated cipher (the AES-GCM
platform guarantee): decryption under the same key and IV inverts
encryption. -/
def AEAD.Correct (A : AEAD) : Prop :=
  ∀ key iv p, A.dec key iv (A.enc key iv p) = some p

/-- encryptChunk(data, password): derive the key from the password,
draw a fresh 12-byte IV (a parameter here) and emit IV ‖ AEAD(data). -/
def encryptChunk (A : AEAD) (kdf : String → List Nat) (iv : List Nat)
    (data : List Nat) (password : String) : List Nat :=
  iv ++ A.enc (kdf password) iv data

/-- decryptChunk(encryptedData, password): the first 12 bytes are the IV,
the rest is ciphertext plus tag. -/
def decryptChunk (A : AEAD) (kdf : String → List Nat)
    (encryptedData : List Nat) (password : String) : Option (List Nat) :=
  A.dec (kdf password) (encryptedData.take 12) (encryptedData.drop 12)

/-- The identity cipher, a trivially correct AEAD instance used for
concrete evaluations. -/
def idAEAD : AEAD :=
  ⟨fun _ _ p => p, fun _ _ c => some c⟩

/-! ## Sender chunking and progress (sendSingleFile loop)

The loop reads values from file.stream().getReader() and slices each
yielded value into CHUNK_SIZE pieces:
for (let i = 0; i < value.length; i += CHUNK_SIZE) chunk = value.slice(i, i + CHUNK_SIZE).
A run of the loop is therefore determined by the list of yielded values
(`segments` below), whose concatenation is the file contents. -/

def CHUNK_SIZE : Nat := 16384

/-- The slicing loop over one yielded value, with the fuel argument (an
upper bound on the number of iterations) making the recursion structural. -/
def sliceValueGo : Nat → List Nat → List (List Nat)
  | _, [] => []
  | 0, _ => []
  | Nat.succ f, l => l.take CHUNK_SIZE :: sliceValueGo f (l.drop CHUNK_SIZE)

/-- The chunks sent for one value yielded by the reader. -/
def sliceValue (value : List Nat) : List (List Nat) :=
  sliceValueGo value.length value

/-- The list of chunk lengths produced from a value of the given length;
same loop on lengths only. -/
def chunkLensGo : Nat → Nat → List Nat
  | _, 0 => []
  | 0, _ => []
  | Nat.succ f, n => min CHUNK_SIZE n :: chunkLensGo f (n - CHUNK_SIZE)

def chunkLens (n : Nat) : List Nat :=
  chunkLensGo n n

/-- The plaintext sizes of all chunks sent for a run of the reader loop.
These are also the amounts added to sentSize:
sentSize += (value.length - i < CHUNK_SIZE) ? value.length - i : CHUNK_SIZE
is exactly the length of value.slice(i, i + CHUNK_SIZE). -/
def sentChunkLens (segments : List (List Nat)) : List Nat :=
  (segments.flatMap sliceValue).map List.length

/-- Math.round((sent / size) * 100) on exact rationals: the nearest
integer to 100*sent/size, halves rounding up. -/
def jsRound100 (sent size : Nat) : Nat :=
  (200 * sent + size) / (2 * size)

/-- The progress values pushed by setTransfers after each chunk send:
the accumulator is sentSize before the chunk, and the report is
Math.round((sentSize / size) * 100) after adding the chunk length. -/
def progressGo (size : Nat) : Nat → List Nat → List Nat
  | _, [] => []
  | sent, c :: cs => jsRound100 (sent + c) size :: progressGo size (sent + c) cs

/-- The sequence of progress values reported while sending a file whose
reader yields `segments`, with declared size `size`. -/
def sendProgressReports (segments : List (List Nat)) (size : Nat) : List Nat :=
  progressGo size 0 (sentChunkLens segments)

/-- Running sums of a list starting from an accumulator: the values taken
by sentSize after each chunk. -/
def cumSums : Nat → List Nat → List Nat
  | _, [] => []
  | acc, c :: cs => (acc + c) :: cumSums (acc + c) cs

/-! ## File substream frames and handlers -/

/-- Frames on a file-<id> data channel: JSON framing messages and binary
chunks. -/
inductive FileMsg where
  | fileStart (name : String) (size : Nat)
  | fileEnd
  | transferCancelled
  | chunk (bytes : List Nat)
deriving DecidableEq

/-- Effect of cancelTransfer on the per-transfer runtime entry:
state.cancelled = true, and if a reader handle is present its stream is
cancelled. -/
def cancelRuntime (st : TransferRuntime) : TransferRuntime :=
  { st with cancelled := true,
            readerCancelled := st.readerCancelled || st.readerActive }

/-- cancelTransfer(id): flag the runtime entry, cancel the reader, send
transfer-cancelled if the substream is open, and set the transfer record
status to cancelled when a record exists.  Returns the new state and the
frames sent on the file substream. -/
def cancelTransfer (s : EndpointState) (id : String) :
    EndpointState × List FileMsg :=
  let ts :=
    match lookupA s.transferStates id with
    | none => s.transferStates
    | some st => upsert s.transferStates id (cancelRuntime st)
  let out :=
    match lookupA s.activeChannels id with
    | some ch => if ch = ChannelReady.opened then [FileMsg.transferCancelled] else []
    | none => []
  let tr :=
    match lookupA s.transfers id with
    | none => s.transfers
    | some t => upsert s.transfers id { t with status := TransferStatus.cancelled }
  ({ s with transferStates := ts, transfers := tr }, out)

/-- acceptFile(id): if no pending entry exists, return unchanged;
otherwise hand the blob to the download sink (a side effect outside the
state), drop the pending entry and mark the transfer completed. -/
def acceptFile (s : EndpointState) (id : String) : EndpointState :=
  match lookupA s.pendingFiles id with
  | none => s
  | some _ =>
    { s with
      pendingFiles := removeKey s.pendingFiles id,
      transfers :=
        match lookupA s.transfers id with
        | none => s.transfers
        | some t => upsert s.transfers id { t with status := TransferStatus.completed } }

/-- declineFile(id): drop the pending entry (no existence check) and, when
a transfer record exists, mark it cancelled with error "Declined". -/
def declineFile (s : EndpointState) (id : String) : EndpointState :=
  { s with
    pendingFiles := removeKey s.pendingFiles id,
    transfers :=
      match lookupA s.transfers id with
      | none => s.transfers
      | some t =>
        upsert s.transfers id
          { t with status := TransferStatus.cancelled, error := some "Declined" } }

/-- Binary-chunk branch of the file channel handler after (optional)
decryption succeeded: append the chunk and update progress from the
cumulative decrypted length. -/
def pushChunk (s : EndpointState) (id : String) (st : TransferRuntime)
    (c : List Nat) : EndpointState :=
  let chunks := st.receivedChunks ++ [c]
  let receivedSize := (chunks.map List.length).sum
  { s with
    transferStates := upsert s.transferStates id { st with receivedChunks := chunks },
    transfers :=
      match lookupA s.transfers id with
      | none => s.transfers
      | some t =>
        upsert s.transfers id { t with progress := jsRound100 receivedSize t.size } }

/-- dc.onmessage of setupFileDataChannel for channel file-<id>.  `decFn`
stands for decryptChunk under the current password (returning none on an
authentication failure, which the handler turns into the caught
"Decryption failed" error).  dc.close() calls are asynchronous channel
effects and are not folded into the state transition. -/
def handleFileMessage (decFn : String → List Nat → Option (List Nat))
    (s : EndpointState) (id : String) (msg : FileMsg) : EndpointState :=
  match lookupA s.transferStates id with
  | none => s
  | some st =>
    match msg with
    | FileMsg.fileStart name size =>
      { s with
        transferStates :=
          upsert s.transferStates id
            { st with currentFile := some (name, size), receivedChunks := [] },
        transfers :=
          upsert s.transfers id
            ⟨id, name, size, 0, TransferStatus.receiving, Direction.receive, none, none⟩ }
    | FileMsg.fileEnd =>
      let blob := st.receivedChunks.flatten
      -- state.currentFile?.name || "download": the empty string is falsy
      let fileName :=
        match st.currentFile with
        | some (n, _) => if n = "" then "download" else n
        | none => "download"
      -- state.currentFile?.size ?? blob.size: nullish coalescing keeps 0
      let fileSize :=
        match st.currentFile with
        | some (_, sz) => sz
        | none => blob.length
      { s with
        transferStates := upsert s.transferStates id { st with receivedChunks := [] },
        pendingFiles := upsert s.pendingFiles id ⟨id, fileName, fileSize, blob⟩,
        transfers :=
          match lookupA s.transfers id with
          | none => s.transfers
          | some t =>
            upsert s.transfers id
              { t with progress := 100, status := TransferStatus.pendingAccept } }
    | FileMsg.transferCancelled =>
      { s with
        transfers :=
          match lookupA s.transfers id with
          | none => s.transfers
          | some t =>
            upsert s.transfers id
              { t with status := TransferStatus.cancelled,
                       error := some "Cancelled by peer" },
        transferStates :=
          upsert s.transferStates id (cancelRuntime { st with receivedChunks := [] }) }
    | FileMsg.chunk bytes =>
      match s.password with
      | some pw =>
        match decFn pw bytes with
        | some c => pushChunk s id st c
        | none =>
          -- throw new Error("Decryption failed") lands in the catch block
          { s with
            transfers :=
              match lookupA s.transfers id with
              | none => s.transfers
              | some t =>
                upsert s.transfers id
                  { t with status := TransferStatus.error,
                           error := some "Processing error" } }
      | none => pushChunk s id st bytes

/-! ## sendSingleFile / retryTransfer -/

/-- The guard of sendSingleFile:
!pcRef.current || pcRef.current.connectionState !== "connected". -/
def notConnected (s : EndpointState) : Bool :=
  match s.pc with
  | some PCState.connected => false
  | _ => true

/-- sendSingleFile(file, existingId?).  With no live connected peer
transport it records an immediate error transfer (retaining the file
handle) and sends nothing.  Otherwise the run shown is the completed
execution of the send loop: open the file-<id> substream, install a fresh
runtime entry, send file-start, the (optionally encrypted) chunks of the
yielded values, then file-end, ending with the record completed at
progress 100.  `encFn` stands for encryptChunk under a password (IV
stream included), `freshId` for Math.random().toString(36).substring(7),
and `segments` for the values yielded by the reader. -/
def sendSingleFile (encFn : String → List Nat → List Nat)
    (s : EndpointState) (file : FileRec) (existingId : Option String)
    (freshId : String) (segments : List (List Nat)) :
    EndpointState × List FileMsg :=
  let id := existingId.getD freshId
  if notConnected s then
    ({ s with
        transfers :=
          upsert s.transfers id
            ⟨id, file.name, file.size, 0, TransferStatus.error, Direction.send,
              some "Not connected", some file⟩ }, [])
  else
    let s1 :=
      { s with
        activeChannels := upsert s.activeChannels id ChannelReady.opened,
        transferStates :=
          upsert s.transferStates id ⟨[], none, false, false, false⟩,
        transfers :=
          upsert s.transfers id
            ⟨id, file.name, file.size, 0, TransferStatus.sending, Direction.send,
              none, some file⟩ }
    let chunkFrames :=
      (segments.flatMap sliceValue).map fun c =>
        FileMsg.chunk (match s.password with | some pw => encFn pw c | none => c)
    let s2 :=
      { s1 with
        transfers :=
          match lookupA s1.transfers id with
          | none => s1.transfers
          | some t =>
            upsert s1.transfers id
              { t with progress := 100, status := TransferStatus.completed } }
    (s2, FileMsg.fileStart file.name file.size :: chunkFrames ++ [FileMsg.fileEnd])

/-- retryTransfer(id): resend the retained file under the same id when the
record exists, kept its file handle, and is in error state. -/
def retryTransfer (encFn : String → List Nat → List Nat)
    (s : EndpointState) (id : String) (freshId : String)
    (segments : List (List Nat)) : EndpointState × List FileMsg :=
  match lookupA s.transfers id with
  | some t =>
    match t.file with
    | some f =>
      if t.status = TransferStatus.error then
        sendSingleFile encFn s f (some id) freshId segments
      else (s, [])
    | none => (s, [])
  | none => (s, [])

/-- A state holding one completed send transfer, for concrete evaluation
of the cancellation behaviour. -/
def completedState : EndpointState :=
  { initialState with
      transfers :=
        [("t1", ⟨"t1", "a.txt", 3, 100, TransferStatus.completed, Direction.send,
            none, none⟩)] }

/-- completedState together with a runtime entry for the same transfer. -/
def cancelDemoState : EndpointState :=
  { completedState with
      transferStates := [("t1", ⟨[], none, false, false, false⟩)] }

/-- A receiver state whose file substream runtime entry holds two received
chunks but never saw a file-start frame. -/
def recvDemoState : EndpointState :=
  { initialState with
      transferStates := [("r1", ⟨[[1, 2], [3]], none, false, false, false⟩)] }

/-! # Theorems -/

/-! ## Association-list lemmas -/

theorem lookupA_upsert {α : Type} (m : List (String × α)) (k : String) (v : α) :
    lookupA (upsert m k v) k = some v := by
  induction m with
  | nil => simp [upsert, lookupA]
  | cons p rest ih =>
    by_cases h : p.1 = k
    · simp [upsert, h, lookupA]
    · simp [upsert, h, lookupA, ih]

theorem upsert_upsert {α : Type} (m : List (String × α)) (k : String) (v : α) :
    upsert (upsert m k v) k v = upsert m k v := by
  induction m with
  | nil => simp [upsert]
  | cons p rest ih =>
    by_cases h : p.1 = k
    · simp [upsert, h]
    · simp [upsert, h, ih]

theorem removeKey_of_lookupA_none {α : Type} (m : List (String × α))
    (k : String) (h : lookupA m k = none) : removeKey m k = m := by
  induction m with
  | nil => rfl
  | cons p rest ih =>
    by_cases hp : p.1 = k
    · simp [lookupA, hp] at h
    · have h' : lookupA rest k = none := by simpa [lookupA, hp] using h
      have hb : ((fun q => q.1 != k) p) = true := by simp [bne, hp]
      calc removeKey (p :: rest) k = p :: removeKey rest k := by
            simp [removeKey, List.filter_cons, hb]
        _ = p :: rest := by rw [ih h']

/-! ## Chunking lemmas -/

theorem chunkLensGo_zero (f : Nat) : chunkLensGo f 0 = [] := by
  cases f <;> rfl

theorem chunkLensGo_succ (f m : Nat) :
    chunkLensGo (f + 1) (m + 1) =
      min CHUNK_SIZE (m + 1) :: chunkLensGo f (m + 1 - CHUNK_SIZE) := rfl

theorem sliceValueGo_nil (f : Nat) : sliceValueGo f [] = [] := by
  cases f <;> rfl

theorem sliceValueGo_cons (f a : Nat) (l : List Nat) :
    sliceValueGo (f + 1) (a :: l) =
      (a :: l).take CHUNK_SIZE :: sliceValueGo f ((a :: l).drop CHUNK_SIZE) := rfl

theorem chunkLensGo_fuel (f : Nat) : ∀ (f' n : Nat), n ≤ f → n ≤ f' →
    chunkLensGo f n = chunkLensGo f' n := by
  induction f with
  | zero =>
    intro f' n h _
    have : n = 0 := Nat.le_zero.mp h
    subst this
    rw [chunkLensGo_zero, chunkLensGo_zero]
  | succ f ih =>
    intro f' n h h'
    cases n with
    | zero => rw [chunkLensGo_zero, chunkLensGo_zero]
    | succ m =>
      cases f' with
      | zero => omega
      | succ f'' =>
        have hC : 1 ≤ CHUNK_SIZE := by decide
        rw [chunkLensGo_succ, chunkLensGo_succ]
        congr 1
        exact ih f'' (m + 1 - CHUNK_SIZE) (by omega) (by omega)

theorem chunkLens_unfold (n : Nat) (h : n ≠ 0) :
    chunkLens n = min CHUNK_SIZE n :: chunkLens (n - CHUNK_SIZE) := by
  have hC : 1 ≤ CHUNK_SIZE := by decide
  obtain ⟨m, rfl⟩ : ∃ m, n = m + 1 := ⟨n - 1, by omega⟩
  show chunkLensGo (m + 1) (m + 1) = _
  rw [chunkLensGo_succ]
  exact congrArg (List.cons (min CHUNK_SIZE (m + 1)))
    (chunkLensGo_fuel m (m + 1 - CHUNK_SIZE) (m + 1 - CHUNK_SIZE)
      (by omega) (le_refl _))

theorem sliceValueGo_map_length (f : Nat) : ∀ l : List Nat, l.length ≤ f →
    (sliceValueGo f l).map List.length = chunkLensGo f l.length := by
  induction f with
  | zero =>
    intro l h
    have : l = [] := List.eq_nil_of_length_eq_zero (Nat.le_zero.mp h)
    subst this
    rfl
  | succ f ih =>
    intro l h
    cases l with
    | nil => rw [sliceValueGo_nil]; rfl
    | cons a rest =>
      have hC : 1 ≤ CHUNK_SIZE := by decide
      have hlen : (a :: rest).length = rest.length + 1 := rfl
      rw [sliceValueGo_cons, List.map_cons, hlen, chunkLensGo_succ]
      have hdroplen : ((a :: rest).drop CHUNK_SIZE).length ≤ f := by
        rw [List.length_drop, hlen]
        simp at h
        omega
      rw [ih _ hdroplen]
      rw [List.length_take, List.length_drop, hlen]

theorem sliceValue_map_length (l : List Nat) :
    (sliceValue l).map List.length = chunkLens l.length :=
  sliceValueGo_map_length l.length l (le_refl _)

theorem sentChunkLens_eq (segments : List (List Nat)) :
    sentChunkLens segments = segments.flatMap fun v => chunkLens v.length := by
  unfold sentChunkLens
  rw [List.map_flatMap]
  exact congrArg _ (funext fun v => sliceValue_map_length v)

theorem chunkLens_mul (k : Nat) :
    chunkLens (k * CHUNK_SIZE) = List.replicate k CHUNK_SIZE := by
  have hC : 1 ≤ CHUNK_SIZE := by decide
  induction k with
  | zero => rfl
  | succ k ih =>
    rw [Nat.succ_mul]
    rw [chunkLens_unfold _ (by omega)]
    have h1 : min CHUNK_SIZE (k * CHUNK_SIZE + CHUNK_SIZE) = CHUNK_SIZE := by omega
    have h2 : k * CHUNK_SIZE + CHUNK_SIZE - CHUNK_SIZE = k * CHUNK_SIZE := by omega
    rw [h1, h2, ih, List.replicate_succ]

theorem chunkLens_mul_add_one (k : Nat) :
    chunkLens (k * CHUNK_SIZE + 1) = List.replicate k CHUNK_SIZE ++ [1] := by
  have hC : 1 ≤ CHUNK_SIZE := by decide
  induction k with
  | zero => decide
  | succ k ih =>
    rw [Nat.succ_mul]
    rw [chunkLens_unfold _ (by omega)]
    have h1 : min CHUNK_SIZE (k * CHUNK_SIZE + CHUNK_SIZE + 1) = CHUNK_SIZE := by
      omega
    have h2 : k * CHUNK_SIZE + CHUNK_SIZE + 1 - CHUNK_SIZE = k * CHUNK_SIZE + 1 := by
      omega
    rw [h1, h2, ih, List.replicate_succ, List.cons_append]

theorem progressGo_eq_cumSums (size : Nat) (l : List Nat) : ∀ acc : Nat,
    progressGo size acc l = (cumSums acc l).map fun sent => jsRound100 sent size := by
  induction l with
  | nil => intro acc; rfl
  | cons c cs ih => intro acc; simp [progressGo, cumSums, ih]

/-! ## Claims -/

/-- C1 (counterexample): the endpoint has password "secret" and, as
initiator, previously sent challenge [0] on channel open; it then receives
an auth-response echoing the different challenge [1] with a valid MAC over
[1].  The handler replies auth-ok and admits instead of rejecting: the
received handler never compares the echoed challenge with the one sent. -/
theorem auth_response_counterexample :
    handleControlOpen { initialState with password := some "secret" } true [0] =
      [CtrlMsg.authChallenge [0]] ∧
    ([1] : List Nat) ≠ [0] ∧
    (handleControlMessage macDemo { initialState with password := some "secret" }
        (CtrlMsg.authResponse [1] (macDemo "secret" [1]))).2 = [CtrlMsg.authOk] ∧
    (handleControlMessage macDemo { initialState with password := some "secret" }
        (CtrlMsg.authResponse [1] (macDemo "secret" [1]))).1.authError = none := by
  refine ⟨rfl, by decide, ?_, ?_⟩ <;> decide

/-- C1 (amended): with a password configured, on auth-response the handler
verifies the MAC over the challenge echoed in the response only — without
requiring it to equal the challenge previously sent.  If the MAC over the
echoed challenge verifies it sends auth-ok and admits; otherwise it sends
auth-fail, records the wrong-password error, and tears down the peer
connection and channels. -/
theorem auth_response_verifies_echoed_challenge
    (mac : String → List Nat → List Nat) (s : EndpointState) (pw : String)
    (c sig : List Nat) (h : s.password = some pw) :
    (verifyChallenge mac c sig pw = true →
      handleControlMessage mac s (CtrlMsg.authResponse c sig) =
        ({ s with authError := none }, [CtrlMsg.authOk])) ∧
    (verifyChallenge mac c sig pw = false →
      handleControlMessage mac s (CtrlMsg.authResponse c sig) =
        ({ teardownPeerConnection s with
            authError := some "Wrong password — authentication failed.",
            isConnected := false, peerId := none }, [CtrlMsg.authFail])) := by
  constructor <;> intro hv <;> simp [handleControlMessage, h, hv]

theorem auth_response_verifies_echoed_challenge_witness :
    ({ initialState with password := some "pw" } : EndpointState).password =
      some "pw" ∧
    (verifyChallenge macDemo [7] (macDemo "pw" [7]) "pw" = true →
      handleControlMessage macDemo { initialState with password := some "pw" }
          (CtrlMsg.authResponse [7] (macDemo "pw" [7])) =
        ({ { initialState with password := some "pw" } with authError := none },
          [CtrlMsg.authOk])) :=
  ⟨rfl,
    (auth_response_verifies_echoed_challenge macDemo
      { initialState with password := some "pw" } "pw" [7] (macDemo "pw" [7]) rfl).1⟩

/-- C2 (counterexample): starting from the freshly mounted state, the very
first frame received on the control stream — before any auth frame, hence
before the handshake reaches admitted or skipped — is a chat frame, and it
is appended to the chat message list rather than discarded. -/
theorem chat_before_admission_counterexample :
    (runCtrl macDemo initialState [CtrlMsg.chat "m1" "hello" 5]).1.chatMessages =
      [⟨"m1", "hello", Origin.peer, 5⟩] ∧
    (runCtrl macDemo initialState [CtrlMsg.chat "m1" "hello" 5]).1.chatMessages ≠
      [] := by
  refine ⟨rfl, by decide⟩

/-- C2 (amended): the control-stream handler keeps no admission state: a
chat frame is appended to the chat list in every state, admitted or not,
while a frame of unrecognised kind is discarded with no state change and
no reply. -/
theorem control_chat_always_appended
    (mac : String → List Nat → List Nat) (s : EndpointState)
    (i t : String) (ts : Nat) :
    (handleControlMessage mac s (CtrlMsg.chat i t ts)).1.chatMessages =
      s.chatMessages ++ [⟨i, t, Origin.peer, ts⟩] ∧
    handleControlMessage mac s CtrlMsg.unknown = (s, []) :=
  ⟨rfl, rfl⟩

/-- C3: decryptChunk inverts encryptChunk: for any correct authenticated
cipher, any 12-byte IV, any plaintext bytes and any password,
decrypting the encryption under the same password returns the plaintext;
encryptChunk emits IV ‖ AEAD(plaintext) and decryptChunk splits the first
12 bytes as the IV and the rest as ciphertext plus tag. -/
theorem decrypt_encrypt_roundtrip (A : AEAD) (kdf : String → List Nat)
    (iv data : List Nat) (pw : String) (hA : A.Correct) (hiv : iv.length = 12) :
    decryptChunk A kdf (encryptChunk A kdf iv data pw) pw = some data := by
  unfold decryptChunk encryptChunk
  rw [← hiv, List.take_left, List.drop_left]
  exact hA _ _ _

theorem decrypt_encrypt_roundtrip_witness :
    idAEAD.Correct ∧ (List.replicate 12 (0 : Nat)).length = 12 ∧
    decryptChunk idAEAD (fun _ => []) (encryptChunk idAEAD (fun _ => [])
      (List.replicate 12 0) [1, 2, 3] "pw") "pw" = some [1, 2, 3] :=
  ⟨fun _ _ _ => rfl, by decide,
    decrypt_encrypt_roundtrip idAEAD (fun _ => []) (List.replicate 12 0)
      [1, 2, 3] "pw" (fun _ _ _ => rfl) (by decide)⟩

/-- C4 (counterexample): sending a 49152-byte file yielded as a single
value produces three 16384-byte chunks; after the second chunk 32768 of
49152 bytes are sent and the reported progress is
Math.round(32768/49152*100) = 67, while floor((32768/49152)*100) = 66. -/
theorem progress_floor_counterexample :
    sentChunkLens [List.replicate 49152 0] = [16384, 16384, 16384] ∧
    sendProgressReports [List.replicate 49152 0] 49152 = [33, 67, 100] ∧
    (100 * 32768) / 49152 = 66 ∧ (67 : Nat) ≠ 66 := by
  have hs : sentChunkLens [List.replicate 49152 0] = [16384, 16384, 16384] := by
    rw [sentChunkLens_eq]
    simp only [List.flatMap_cons, List.flatMap_nil, List.length_replicate,
      List.append_nil]
    decide
  refine ⟨hs, ?_, by decide, by decide⟩
  unfold sendProgressReports
  rw [hs]
  decide

/-- C4 (amended): the progress reported after each chunk equals
Math.round((bytes-sent / size) * 100) — the nearest integer with halves
rounding up, floor((200*sent + size) / (2*size)) — not the floor of the
percentage; bytes-sent is the cumulative sum of plaintext chunk lengths. -/
theorem progress_reports_are_rounded (segments : List (List Nat)) (size : Nat)
    (h : 0 < size) :
    sendProgressReports segments size =
      (cumSums 0 (sentChunkLens segments)).map fun sent => jsRound100 sent size :=
  progressGo_eq_cumSums size (sentChunkLens segments) 0

theorem progress_reports_are_rounded_witness :
    0 < 2 ∧
    sendProgressReports [[1, 2]] 2 =
      (cumSums 0 (sentChunkLens [[1, 2]])).map fun sent => jsRound100 sent 2 :=
  ⟨by decide, progress_reports_are_rounded [[1, 2]] 2 (by decide)⟩

/-- C5 (counterexample): a transfer in status completed is moved to status
cancelled by cancelTransfer — the status update guards only on the record
existing, not on its current status, so completed is not terminal. -/
theorem completed_to_cancelled_counterexample :
    lookupA completedState.transfers "t1" =
      some ⟨"t1", "a.txt", 3, 100, TransferStatus.completed, Direction.send,
        none, none⟩ ∧
    lookupA (cancelTransfer completedState "t1").1.transfers "t1" =
      some ⟨"t1", "a.txt", 3, 100, TransferStatus.cancelled, Direction.send,
        none, none⟩ ∧
    TransferStatus.cancelled ≠ TransferStatus.completed := by
  refine ⟨by decide, by decide, by decide⟩

/-- C5 (amended): cancelTransfer and an incoming transfer-cancelled frame
set the status of an existing transfer record to cancelled whatever its
current status is — including completed — so status monotonicity does not
hold at the terminal states for cancellation operations. -/
theorem cancel_sets_status_regardless
    (decFn : String → List Nat → Option (List Nat)) (s : EndpointState)
    (id : String) (t : FileTransferProgress)
    (h : lookupA s.transfers id = some t) :
    lookupA (cancelTransfer s id).1.transfers id =
      some { t with status := TransferStatus.cancelled } ∧
    (∀ st, lookupA s.transferStates id = some st →
      lookupA (handleFileMessage decFn s id FileMsg.transferCancelled).transfers id =
        some { t with status := TransferStatus.cancelled,
                      error := some "Cancelled by peer" }) := by
  constructor
  · simp [cancelTransfer, h, lookupA_upsert]
  · intro st hst
    simp [handleFileMessage, hst, h, lookupA_upsert]

theorem cancel_sets_status_regardless_witness :
    lookupA cancelDemoState.transfers "t1" =
      some ⟨"t1", "a.txt", 3, 100, TransferStatus.completed, Direction.send,
        none, none⟩ ∧
    lookupA (cancelTransfer cancelDemoState "t1").1.transfers "t1" =
      some ⟨"t1", "a.txt", 3, 100, TransferStatus.cancelled, Direction.send,
        none, none⟩ :=
  ⟨rfl,
    (cancel_sets_status_regardless (fun _ _ => none) cancelDemoState "t1"
      ⟨"t1", "a.txt", 3, 100, TransferStatus.completed, Direction.send,
        none, none⟩ rfl).1⟩

/-- C9: acceptFile on an id with no pending entry returns the state
unchanged, and declineFile on an id absent from both the pending and the
transfers collections returns the state unchanged. -/
theorem accept_decline_missing_id_noop (s : EndpointState) (id : String) :
    (lookupA s.pendingFiles id = none → acceptFile s id = s) ∧
    (lookupA s.pendingFiles id = none → lookupA s.transfers id = none →
      declineFile s id = s) := by
  constructor
  · intro h
    simp [acceptFile, h]
  · intro h h'
    simp [declineFile, h', removeKey_of_lookupA_none _ _ h]

theorem accept_decline_missing_id_noop_witness :
    acceptFile initialState "x" = initialState ∧
    declineFile initialState "x" = initialState :=
  ⟨(accept_decline_missing_id_noop initialState "x").1 rfl,
   (accept_decline_missing_id_noop initialState "x").2 rfl rfl⟩

/-- C10: a file-end frame arriving on a substream whose runtime entry never
saw file-start (currentFile is unset) and which has no transfer record
still publishes a pending file named "download" whose size is the length
of the assembled payload, while the transfers collection is unchanged — a
PendingFile can therefore exist with no transfer in status
pending-accept. -/
theorem file_end_without_start (decFn : String → List Nat → Option (List Nat))
    (s : EndpointState) (id : String) (st : TransferRuntime)
    (h : lookupA s.transferStates id = some st)
    (hcf : st.currentFile = none)
    (ht : lookupA s.transfers id = none) :
    lookupA (handleFileMessage decFn s id FileMsg.fileEnd).pendingFiles id =
      some ⟨id, "download", st.receivedChunks.flatten.length,
        st.receivedChunks.flatten⟩ ∧
    (handleFileMessage decFn s id FileMsg.fileEnd).transfers = s.transfers := by
  simp [handleFileMessage, h, hcf, ht, lookupA_upsert]

theorem file_end_without_start_witness :
    lookupA recvDemoState.transferStates "r1" =
      some ⟨[[1, 2], [3]], none, false, false, false⟩ ∧
    lookupA recvDemoState.transfers "r1" = none ∧
    lookupA (handleFileMessage (fun _ _ => none) recvDemoState "r1"
        FileMsg.fileEnd).pendingFiles "r1" =
      some ⟨"r1", "download", 3, [1, 2, 3]⟩ ∧
    (handleFileMessage (fun _ _ => none) recvDemoState "r1"
        FileMsg.fileEnd).transfers = recvDemoState.transfers :=
  ⟨rfl, rfl,
    (file_end_without_start (fun _ _ => none) recvDemoState "r1"
      ⟨[[1, 2], [3]], none, false, false, false⟩ rfl rfl rfl).1,
    (file_end_without_start (fun _ _ => none) recvDemoState "r1"
      ⟨[[1, 2], [3]], none, false, false, false⟩ rfl rfl rfl).2⟩

/-- Applying the cancelTransfer runtime update twice equals applying it
once. -/
theorem cancelRuntime_idem (st : TransferRuntime) :
    cancelRuntime (cancelRuntime st) = cancelRuntime st := by
  cases st
  simp [cancelRuntime, Bool.or_assoc]

/-- C6: cancelTransfer is idempotent: cancelling the same id twice from
any state yields exactly the outcome (state and emitted frames) of
cancelling it once. -/
theorem cancelTransfer_idempotent (s : EndpointState) (id : String) :
    cancelTransfer (cancelTransfer s id).1 id = cancelTransfer s id := by
  rcases hst : lookupA s.transferStates id with _ | st <;>
  rcases htr : lookupA s.transfers id with _ | t <;>
    simp [cancelTransfer, hst, htr, lookupA_upsert, upsert_upsert,
      cancelRuntime_idem]

/-- C7 (counterexample): a 32768-byte file — an exact multiple of the
16384-byte chunk size — whose reader yields it as two values of 10000 and
22768 bytes is sent as chunks of 10000, 16384 and 6384 bytes: the slicing
restarts at each yielded value, so short chunks occur and not every chunk
has length 16384. -/
theorem chunk_sizes_counterexample :
    10000 + 22768 = 2 * CHUNK_SIZE ∧
    sentChunkLens [List.replicate 10000 0, List.replicate 22768 0] =
      [10000, 16384, 6384] ∧
    ¬ (∀ c ∈ ([List.replicate 10000 (0 : Nat),
          List.replicate 22768 0].flatMap sliceValue),
        c.length = CHUNK_SIZE) := by
  have h2 : sentChunkLens [List.replicate 10000 0, List.replicate 22768 0] =
      [10000, 16384, 6384] := by
    rw [sentChunkLens_eq]
    simp only [List.flatMap_cons, List.flatMap_nil, List.length_replicate,
      List.append_nil]
    decide
  refine ⟨by decide, h2, ?_⟩
  intro hall
  have hmem : (10000 : Nat) ∈
      sentChunkLens [List.replicate 10000 0, List.replicate 22768 0] := by
    rw [h2]
    simp
  unfold sentChunkLens at hmem
  rw [List.mem_map] at hmem
  obtain ⟨c, hc, hlen⟩ := hmem
  have hc16 := hall c hc
  rw [hc16] at hlen
  exact absurd hlen (by decide)

/-- C7 (amended): the sender slices each value yielded by the reader into
16384-byte chunks separately.  Hence when every yielded value has a length
divisible by the chunk size (in particular when a file whose size is an
exact multiple is yielded as one value), every emitted chunk is exactly
16384 bytes with no short final chunk; and a single yielded value of
length k*16384+1 produces k full chunks followed by a final 1-byte
chunk. -/
theorem chunking_with_aligned_segments :
    (∀ segments : List (List Nat),
        (∀ v ∈ segments, CHUNK_SIZE ∣ v.length) →
        ∀ c ∈ segments.flatMap sliceValue, c.length = CHUNK_SIZE) ∧
    (∀ (k : Nat) (l : List Nat), l.length = k * CHUNK_SIZE + 1 →
        (sliceValue l).map List.length = List.replicate k CHUNK_SIZE ++ [1]) := by
  constructor
  · intro segs hdvd c hc
    rw [List.mem_flatMap] at hc
    obtain ⟨v, hv, hcv⟩ := hc
    obtain ⟨k, hk⟩ := hdvd v hv
    have hlen : c.length ∈ (sliceValue v).map List.length :=
      List.mem_map_of_mem _ hcv
    rw [sliceValue_map_length, hk, Nat.mul_comm CHUNK_SIZE k,
      chunkLens_mul] at hlen
    exact List.eq_of_mem_replicate hlen
  · intro k l hl
    rw [sliceValue_map_length, hl, chunkLens_mul_add_one]

theorem chunking_with_aligned_segments_witness :
    (∀ v ∈ [List.replicate 32768 (0 : Nat)], CHUNK_SIZE ∣ v.length) ∧
    (∀ c ∈ ([List.replicate 32768 (0 : Nat)].flatMap sliceValue),
      c.length = CHUNK_SIZE) ∧
    (List.replicate 16385 (0 : Nat)).length = 1 * CHUNK_SIZE + 1 ∧
    (sliceValue (List.replicate 16385 (0 : Nat))).map List.length =
      List.replicate 1 CHUNK_SIZE ++ [1] := by
  have h1 : ∀ v ∈ [List.replicate 32768 (0 : Nat)], CHUNK_SIZE ∣ v.length := by
    intro v hv
    simp only [List.mem_singleton] at hv
    subst hv
    rw [List.length_replicate]
    decide
  have h2 : (List.replicate 16385 (0 : Nat)).length = 1 * CHUNK_SIZE + 1 := by
    rw [List.length_replicate]
    decide
  exact ⟨h1, chunking_with_aligned_segments.1 _ h1, h2,
    chunking_with_aligned_segments.2 1 _ h2⟩

/-- C8: calling sendSingleFile with no live connected peer transport
immediately records a transfer in status error with kind "Not connected"
retaining the file handle, sends nothing on the wire, and leaves every
other collection untouched; once the transport is connected,
retryTransfer on that id reopens a fresh file substream and resends under
the same transfer id, ending completed. -/
theorem send_not_connected_behavior
    (encFn : String → List Nat → List Nat) (s : EndpointState) (file : FileRec)
    (freshId : String) (segments : List (List Nat))
    (h : notConnected s = true) :
    (sendSingleFile encFn s file none freshId segments).2 = [] ∧
    lookupA (sendSingleFile encFn s file none freshId segments).1.transfers
        freshId =
      some ⟨freshId, file.name, file.size, 0, TransferStatus.error,
        Direction.send, some "Not connected", some file⟩ ∧
    (sendSingleFile encFn s file none freshId segments).1.pendingFiles =
      s.pendingFiles ∧
    (sendSingleFile encFn s file none freshId segments).1.chatMessages =
      s.chatMessages ∧
    (sendSingleFile encFn s file none freshId segments).1.activeChannels =
      s.activeChannels ∧
    (sendSingleFile encFn s file none freshId segments).1.transferStates =
      s.transferStates ∧
    (retryTransfer encFn
        { (sendSingleFile encFn s file none freshId segments).1 with
            pc := some PCState.connected } freshId freshId segments).2 =
      FileMsg.fileStart file.name file.size ::
        ((segments.flatMap sliceValue).map fun c =>
          FileMsg.chunk
            (match s.password with | some pw => encFn pw c | none => c))
        ++ [FileMsg.fileEnd] ∧
    lookupA (retryTransfer encFn
        { (sendSingleFile encFn s file none freshId segments).1 with
            pc := some PCState.connected } freshId freshId
        segments).1.transfers freshId =
      some ⟨freshId, file.name, file.size, 100, TransferStatus.completed,
        Direction.send, none, some file⟩ ∧
    lookupA (retryTransfer encFn
        { (sendSingleFile encFn s file none freshId segments).1 with
            pc := some PCState.connected } freshId freshId
        segments).1.activeChannels freshId = some ChannelReady.opened := by
  have herr : sendSingleFile encFn s file none freshId segments =
      ({ s with
          transfers := upsert s.transfers freshId
            ⟨freshId, file.name, file.size, 0, TransferStatus.error,
              Direction.send, some "Not connected", some file⟩ }, []) := by
    simp [sendSingleFile, h]
  rw [herr]
  refine ⟨rfl, lookupA_upsert _ _ _, rfl, rfl, rfl, rfl, ?_, ?_, ?_⟩ <;>
    simp [retryTransfer, sendSingleFile, notConnected, lookupA_upsert]

theorem send_not_connected_behavior_witness :
    notConnected initialState = true ∧
    (sendSingleFile (fun _ c => c) initialState ⟨"a.txt", 3⟩ none "t1"
      [[1, 2, 3]]).2 = [] ∧
    lookupA (sendSingleFile (fun _ c => c) initialState ⟨"a.txt", 3⟩ none "t1"
        [[1, 2, 3]]).1.transfers "t1" =
      some ⟨"t1", "a.txt", 3, 0, TransferStatus.error, Direction.send,
        some "Not connected", some ⟨"a.txt", 3⟩⟩ :=
  ⟨rfl,
    (send_not_connected_behavior (fun _ c => c) initialState ⟨"a.txt", 3⟩ "t1"
      [[1, 2, 3]] rfl).1,
    (send_not_connected_behavior (fun _ c => c) initialState ⟨"a.txt", 3⟩ "t1"
      [[1, 2, 3]] rfl).2.1⟩
